import Mathlib

/-!
Shallow embedding of the pipeline arena of `poisson_corrode` (`src/pipeline.rs`).

The arena stores compiled GPU pipelines behind stable handles, deduplicates
structurally equal descriptors, maps shader source paths to the handles built
from them, and re-materializes pipelines in place on reload.

Modelling choices, each justified against the source:
- `SlotMap<RenderHandle, _>` / `SlotMap<ComputeHandle, _>`: the arena never
  removes entries, so slot versions never advance; a slotmap degenerates to an
  append-only vector whose fresh key is the current length.  We model it as a
  `List` and a handle as a wrapper around the slot index.  `RenderHandle` and
  `ComputeHandle` are two distinct structures, mirroring
  `slotmap::new_key_type!` generating two distinct key types.
- `HashMap` / `SecondaryMap`: modelled as association lists with first-match
  lookup; insertion of a key known to be absent is modelled by prepending
  (hash maps are unordered and are only read through point lookups here).
- `wgpu::Device` is threaded unchanged through every call in the source and
  only ever handed to `descriptor.process`; we fold it into the opaque
  materialization functions `processR`/`processC` that stand for
  `RenderPipelineDescriptor::process` / `ComputePipelineDescriptor::process`
  (which call into the external GPU backend).
- Rust indexing panics (`self.pipelines[handle]`, `self.descriptors[handle]`,
  `self.path_mapping[path]`) are modelled as `Option`/`none`: a `none` result
  is the fatal `UnknownHandle`/`UnknownPath` programmer error.
- `Watcher::watch_file` is an external side effect on the file-watch
  collaborator (its code is not part of the sources); it does not touch any
  arena state and is omitted from the state.
- To observe how often the backend materialize step runs, the process
  operations additionally return the list of descriptors they materialized
  during the call (empty on cache hit, a singleton on miss).  This
  instrumentation is the only addition over the source control flow.
-/

set_option linter.unusedSectionVars false

namespace PoissonCorrode

/-- Key type generated by `slotmap::new_key_type!` for render pipelines. -/
structure RenderHandle where
  idx : Nat
deriving DecidableEq, Repr

/-- Key type generated by `slotmap::new_key_type!` for compute pipelines. -/
structure ComputeHandle where
  idx : Nat
deriving DecidableEq, Repr

/-- First-match association-list lookup, modelling `HashMap`/`SecondaryMap`
point queries. -/
def alookup {α β : Type} [DecidableEq α] : List (α × β) → α → Option β
  | [], _ => none
  | (k, v) :: rest, a => if k = a then some v else alookup rest a

/-- Models `self.path_mapping.entry(path).or_default().push(v)`: append `v` to
the vector stored under `k`, creating the entry if absent. -/
def pushEntry {α β : Type} [DecidableEq α] : List (α × List β) → α → β → List (α × List β)
  | [], k, v => [(k, [v])]
  | (k', vs) :: rest, k, v =>
    if k' = k then (k', vs ++ [v]) :: rest else (k', vs) :: pushEntry rest k v

/-- State of `RenderArena`: the pipeline slotmap, the secondary descriptor
map, and the dedup cache. -/
structure RenderArena (RD RP : Type) where
  pipelines : List RP
  descriptors : List (RenderHandle × RD)
  cached : List (RD × RenderHandle)
deriving Repr, DecidableEq

/-- State of `ComputeArena`. -/
structure ComputeArena (CD CP : Type) where
  pipelines : List CP
  descriptors : List (ComputeHandle × CD)
  cached : List (CD × ComputeHandle)
deriving Repr, DecidableEq

/-- State of the top-level `Arena`: the two kind-specific arenas and the
path-to-handles registry (`path_mapping`).  The file watcher is an external
collaborator and carries no arena state. -/
structure Arena (RD CD RP CP : Type) where
  render : RenderArena RD RP
  compute : ComputeArena CD CP
  path_mapping : List (String × List (Sum RenderHandle ComputeHandle))
deriving Repr, DecidableEq

variable {RD CD RP CP Module : Type} [DecidableEq RD] [DecidableEq CD]

/-- Models `RenderArena::process_pipeline`: on a cache hit return the cached
handle, otherwise materialize the pipeline, insert it into the slotmap, record
its descriptor and the cache entry.  The third component records the
descriptors materialized by this call. -/
def RenderArena.process_pipeline (processR : RD → Module → RP) (module : Module)
    (a : RenderArena RD RP) (descriptor : RD) :
    RenderHandle × RenderArena RD RP × List RD :=
  match alookup a.cached descriptor with
  | some h => (h, a, [])
  | none =>
    let pipeline := processR descriptor module
    let handle : RenderHandle := ⟨a.pipelines.length⟩
    (handle,
      { pipelines := a.pipelines ++ [pipeline]
        descriptors := (handle, descriptor) :: a.descriptors
        cached := (descriptor, handle) :: a.cached },
      [descriptor])

/-- Models `RenderArena::reload_pipeline`: look up the stored descriptor of
`handle` and overwrite the slot with a freshly materialized pipeline.  `none`
models the panic on a handle missing from either map. -/
def RenderArena.reload_pipeline (processR : RD → Module → RP) (module : Module)
    (a : RenderArena RD RP) (handle : RenderHandle) : Option (RenderArena RD RP) :=
  match alookup a.descriptors handle with
  | none => none
  | some desc =>
    if handle.idx < a.pipelines.length then
      some { a with pipelines := a.pipelines.set handle.idx (processR desc module) }
    else none

/-- Models `ComputeArena::process_pipeline` (textually parallel to the render
variant in the source). -/
def ComputeArena.process_pipeline (processC : CD → Module → CP) (module : Module)
    (a : ComputeArena CD CP) (descriptor : CD) :
    ComputeHandle × ComputeArena CD CP × List CD :=
  match alookup a.cached descriptor with
  | some h => (h, a, [])
  | none =>
    let pipeline := processC descriptor module
    let handle : ComputeHandle := ⟨a.pipelines.length⟩
    (handle,
      { pipelines := a.pipelines ++ [pipeline]
        descriptors := (handle, descriptor) :: a.descriptors
        cached := (descriptor, handle) :: a.cached },
      [descriptor])

/-- Models `ComputeArena::reload_pipeline`. -/
def ComputeArena.reload_pipeline (processC : CD → Module → CP) (module : Module)
    (a : ComputeArena CD CP) (handle : ComputeHandle) : Option (ComputeArena CD CP) :=
  match alookup a.descriptors handle with
  | none => none
  | some desc =>
    if handle.idx < a.pipelines.length then
      some { a with pipelines := a.pipelines.set handle.idx (processC desc module) }
    else none

/-- Models `Arena::new` (the watcher argument carries no modelled state). -/
def Arena.new : Arena RD CD RP CP :=
  { render := { pipelines := [], descriptors := [], cached := [] }
    compute := { pipelines := [], descriptors := [], cached := [] }
    path_mapping := [] }

/-- Models `<RenderHandle as Handle>::get_pipeline`, i.e.
`&arena.render.pipelines[self]`; `none` models the panic on an unknown
handle. -/
def Arena.get_render_pipeline (a : Arena RD CD RP CP) (h : RenderHandle) : Option RP :=
  a.render.pipelines[h.idx]?

/-- Models `<ComputeHandle as Handle>::get_pipeline`. -/
def Arena.get_compute_pipeline (a : Arena RD CD RP CP) (h : ComputeHandle) : Option CP :=
  a.compute.pipelines[h.idx]?

/-- Models `<RenderHandle as Handle>::get_descriptor`. -/
def Arena.get_render_descriptor (a : Arena RD CD RP CP) (h : RenderHandle) : Option RD :=
  alookup a.render.descriptors h

/-- Models `<ComputeHandle as Handle>::get_descriptor`. -/
def Arena.get_compute_descriptor (a : Arena RD CD RP CP) (h : ComputeHandle) : Option CD :=
  alookup a.compute.descriptors h

/-- Models `Arena::process_render_pipeline`: watch the path (external
side effect), delegate to the render arena, then unconditionally append the
resulting tagged handle to the path registry entry for `path`. -/
def Arena.process_render_pipeline (processR : RD → Module → RP) (module : Module)
    (a : Arena RD CD RP CP) (path : String) (descriptor : RD) :
    RenderHandle × Arena RD CD RP CP × List RD :=
  match a.render.process_pipeline processR module descriptor with
  | (handle, render, mats) =>
    (handle,
      { a with
          render := render
          path_mapping := pushEntry a.path_mapping path (Sum.inl handle) },
      mats)

/-- Models `Arena::process_compute_pipeline`. -/
def Arena.process_compute_pipeline (processC : CD → Module → CP) (module : Module)
    (a : Arena RD CD RP CP) (path : String) (descriptor : CD) :
    ComputeHandle × Arena RD CD RP CP × List CD :=
  match a.compute.process_pipeline processC module descriptor with
  | (handle, compute, mats) =>
    (handle,
      { a with
          compute := compute
          path_mapping := pushEntry a.path_mapping path (Sum.inr handle) },
      mats)

/-- Models `Arena::process_render_pipeline_from_path`.  The module creation
`crate::utils::create_shader_module_with_path` is not among the sources;
Modelled from the spec: `compile_module(source_path) -> Module | CompileError`,
and on failure the call aborts before any cache or table mutation. -/
def Arena.process_render_pipeline_from_path (compile : String → Option Module)
    (processR : RD → Module → RP) (a : Arena RD CD RP CP) (path : String)
    (descriptor : RD) : Option (RenderHandle × Arena RD CD RP CP × List RD) :=
  (compile path).map fun module => a.process_render_pipeline processR module path descriptor

/-- Models `Arena::process_compute_pipeline_from_path` (same modelling of the
missing module-creation helper). -/
def Arena.process_compute_pipeline_from_path (compile : String → Option Module)
    (processC : CD → Module → CP) (a : Arena RD CD RP CP) (path : String)
    (descriptor : CD) : Option (ComputeHandle × Arena RD CD RP CP × List CD) :=
  (compile path).map fun module => a.process_compute_pipeline processC module path descriptor

/-- One iteration of the loop body of `Arena::reload_pipelines`, dispatching
on the tag of the registered handle. -/
def Arena.reloadStep (processR : RD → Module → RP) (processC : CD → Module → CP)
    (module : Module) (a : Arena RD CD RP CP)
    (e : Sum RenderHandle ComputeHandle) : Option (Arena RD CD RP CP) :=
  match e with
  | Sum.inl h => (a.render.reload_pipeline processR module h).map fun r => { a with render := r }
  | Sum.inr h => (a.compute.reload_pipeline processC module h).map fun c => { a with compute := c }

/-- The loop of `Arena::reload_pipelines` over the registered handle list. -/
def Arena.reloadList (processR : RD → Module → RP) (processC : CD → Module → CP)
    (module : Module) (a : Arena RD CD RP CP) :
    List (Sum RenderHandle ComputeHandle) → Option (Arena RD CD RP CP)
  | [] => some a
  | e :: rest =>
    match Arena.reloadStep processR processC module a e with
    | none => none
    | some a1 => Arena.reloadList processR processC module a1 rest

/-- Models `Arena::reload_pipelines`: index the path registry (panicking —
`none` — on an unregistered path, `UnknownPath`) and reload every handle
registered under the path with the freshly compiled module. -/
def Arena.reload_pipelines (processR : RD → Module → RP) (processC : CD → Module → CP)
    (module : Module) (a : Arena RD CD RP CP) (path : String) :
    Option (Arena RD CD RP CP) :=
  match alookup a.path_mapping path with
  | none => none
  | some handles => Arena.reloadList processR processC module a handles

/-! ### Basic lemmas about the map models -/

theorem alookup_nil {α β : Type} [DecidableEq α] (a : α) :
    alookup ([] : List (α × β)) a = none := rfl

theorem alookup_cons {α β : Type} [DecidableEq α] (k a : α) (v : β) (l : List (α × β)) :
    alookup ((k, v) :: l) a = if k = a then some v else alookup l a := rfl

theorem alookup_pushEntry_self {α β : Type} [DecidableEq α]
    (l : List (α × List β)) (k : α) (v : β) :
    alookup (pushEntry l k v) k = some ((alookup l k).getD [] ++ [v]) := by
  induction l with
  | nil => simp [pushEntry, alookup]
  | cons p rest ih =>
    obtain ⟨k1, vs⟩ := p
    by_cases h : k1 = k
    · subst h
      simp [pushEntry, alookup]
    · simp [pushEntry, alookup, h, ih]

theorem alookup_pushEntry_ne {α β : Type} [DecidableEq α]
    (l : List (α × List β)) (k k0 : α) (v : β) (h : k0 ≠ k) :
    alookup (pushEntry l k v) k0 = alookup l k0 := by
  induction l with
  | nil => simp [pushEntry, alookup, Ne.symm h]
  | cons p rest ih =>
    obtain ⟨k1, vs⟩ := p
    by_cases h1 : k1 = k
    · subst h1
      simp [pushEntry, alookup, Ne.symm h]
    · by_cases h2 : k1 = k0
      · subst h2
        simp [pushEntry, alookup, h1]
      · simp [pushEntry, alookup, h1, h2, ih]

/-! ### Unfolding lemmas for the process operations -/

theorem RenderArena.render_process_pipeline_hit (processR : RD → Module → RP) (module : Module)
    (a : RenderArena RD RP) (d : RD) (h : RenderHandle)
    (hhit : alookup a.cached d = some h) :
    a.process_pipeline processR module d = (h, a, []) := by
  simp [RenderArena.process_pipeline, hhit]

theorem RenderArena.render_process_pipeline_miss (processR : RD → Module → RP) (module : Module)
    (a : RenderArena RD RP) (d : RD)
    (hmiss : alookup a.cached d = none) :
    a.process_pipeline processR module d =
      (⟨a.pipelines.length⟩,
        { pipelines := a.pipelines ++ [processR d module]
          descriptors := (⟨a.pipelines.length⟩, d) :: a.descriptors
          cached := (d, ⟨a.pipelines.length⟩) :: a.cached },
        [d]) := by
  simp [RenderArena.process_pipeline, hmiss]

theorem ComputeArena.compute_process_pipeline_hit (processC : CD → Module → CP) (module : Module)
    (a : ComputeArena CD CP) (d : CD) (h : ComputeHandle)
    (hhit : alookup a.cached d = some h) :
    a.process_pipeline processC module d = (h, a, []) := by
  simp [ComputeArena.process_pipeline, hhit]

theorem ComputeArena.compute_process_pipeline_miss (processC : CD → Module → CP) (module : Module)
    (a : ComputeArena CD CP) (d : CD)
    (hmiss : alookup a.cached d = none) :
    a.process_pipeline processC module d =
      (⟨a.pipelines.length⟩,
        { pipelines := a.pipelines ++ [processC d module]
          descriptors := (⟨a.pipelines.length⟩, d) :: a.descriptors
          cached := (d, ⟨a.pipelines.length⟩) :: a.cached },
        [d]) := by
  simp [ComputeArena.process_pipeline, hmiss]

/-! ### Elimination lemmas for one reload step -/

theorem Arena.reloadStep_inl_elim (processR : RD → Module → RP) (processC : CD → Module → CP)
    (module : Module) (a a1 : Arena RD CD RP CP) (h : RenderHandle)
    (hstep : Arena.reloadStep processR processC module a (Sum.inl h) = some a1) :
    ∃ d, alookup a.render.descriptors h = some d ∧
      h.idx < a.render.pipelines.length ∧
      a1.render.pipelines = a.render.pipelines.set h.idx (processR d module) ∧
      a1.render.descriptors = a.render.descriptors ∧
      a1.render.cached = a.render.cached ∧
      a1.compute = a.compute ∧
      a1.path_mapping = a.path_mapping := by
  simp only [Arena.reloadStep, RenderArena.reload_pipeline] at hstep
  cases hdesc : alookup a.render.descriptors h with
  | none => rw [hdesc] at hstep; simp at hstep
  | some d =>
    rw [hdesc] at hstep
    by_cases hlt : h.idx < a.render.pipelines.length
    · simp only [hlt, if_true, Option.map_some', Option.some.injEq] at hstep
      subst hstep
      exact ⟨d, rfl, hlt, rfl, rfl, rfl, rfl, rfl⟩
    · simp [hlt] at hstep

theorem Arena.reloadStep_inr_elim (processR : RD → Module → RP) (processC : CD → Module → CP)
    (module : Module) (a a1 : Arena RD CD RP CP) (h : ComputeHandle)
    (hstep : Arena.reloadStep processR processC module a (Sum.inr h) = some a1) :
    ∃ d, alookup a.compute.descriptors h = some d ∧
      h.idx < a.compute.pipelines.length ∧
      a1.compute.pipelines = a.compute.pipelines.set h.idx (processC d module) ∧
      a1.compute.descriptors = a.compute.descriptors ∧
      a1.compute.cached = a.compute.cached ∧
      a1.render = a.render ∧
      a1.path_mapping = a.path_mapping := by
  simp only [Arena.reloadStep, ComputeArena.reload_pipeline] at hstep
  cases hdesc : alookup a.compute.descriptors h with
  | none => rw [hdesc] at hstep; simp at hstep
  | some d =>
    rw [hdesc] at hstep
    by_cases hlt : h.idx < a.compute.pipelines.length
    · simp only [hlt, if_true, Option.map_some', Option.some.injEq] at hstep
      subst hstep
      exact ⟨d, rfl, hlt, rfl, rfl, rfl, rfl, rfl⟩
    · simp [hlt] at hstep

/-! ### Lemmas about the reload loop -/

theorem Arena.reloadList_frame (processR : RD → Module → RP) (processC : CD → Module → CP)
    (module : Module) (l : List (Sum RenderHandle ComputeHandle)) :
    ∀ a a2 : Arena RD CD RP CP,
      Arena.reloadList processR processC module a l = some a2 →
      a2.render.descriptors = a.render.descriptors ∧
      a2.render.cached = a.render.cached ∧
      a2.render.pipelines.length = a.render.pipelines.length ∧
      a2.compute.descriptors = a.compute.descriptors ∧
      a2.compute.cached = a.compute.cached ∧
      a2.compute.pipelines.length = a.compute.pipelines.length ∧
      a2.path_mapping = a.path_mapping := by
  induction l with
  | nil =>
    intro a a2 hrun
    simp only [Arena.reloadList, Option.some.injEq] at hrun
    subst hrun
    exact ⟨rfl, rfl, rfl, rfl, rfl, rfl, rfl⟩
  | cons e rest ih =>
    intro a a2 hrun
    simp only [Arena.reloadList] at hrun
    cases hstep : Arena.reloadStep processR processC module a e with
    | none => rw [hstep] at hrun; simp at hrun
    | some a1 =>
      rw [hstep] at hrun
      obtain ⟨hd, hc, hcomp, hdd, hcc, hccomp, hp⟩ := ih a1 a2 hrun
      cases e with
      | inl h =>
        obtain ⟨d, _, _, hpip, hdesc, hcache, hco, hpm⟩ :=
          Arena.reloadStep_inl_elim processR processC module a a1 h hstep
        refine ⟨hd.trans hdesc, hc.trans hcache, ?_, ?_, ?_, ?_, hp.trans hpm⟩
        · rw [hcomp, hpip, List.length_set]
        · rw [hdd, hco]
        · rw [hcc, hco]
        · rw [hccomp, hco]
      | inr h =>
        obtain ⟨d, _, _, hpip, hdesc, hcache, hre, hpm⟩ :=
          Arena.reloadStep_inr_elim processR processC module a a1 h hstep
        refine ⟨?_, ?_, ?_, hdd.trans hdesc, hcc.trans hcache, ?_, hp.trans hpm⟩
        · rw [hd, hre]
        · rw [hc, hre]
        · rw [hcomp, hre]
        · rw [hccomp, hpip, List.length_set]

theorem Arena.reloadList_get_render_ne (processR : RD → Module → RP)
    (processC : CD → Module → CP) (module : Module)
    (l : List (Sum RenderHandle ComputeHandle)) :
    ∀ a a2 : Arena RD CD RP CP,
      Arena.reloadList processR processC module a l = some a2 →
      ∀ i : Nat, (∀ h : RenderHandle, Sum.inl h ∈ l → h.idx ≠ i) →
        a2.render.pipelines[i]? = a.render.pipelines[i]? := by
  induction l with
  | nil =>
    intro a a2 hrun i _
    simp only [Arena.reloadList, Option.some.injEq] at hrun
    subst hrun; rfl
  | cons e rest ih =>
    intro a a2 hrun i hni
    simp only [Arena.reloadList] at hrun
    cases hstep : Arena.reloadStep processR processC module a e with
    | none => rw [hstep] at hrun; simp at hrun
    | some a1 =>
      rw [hstep] at hrun
      have hrest := ih a1 a2 hrun i fun h hm => hni h (List.mem_cons_of_mem _ hm)
      rw [hrest]
      cases e with
      | inl h =>
        obtain ⟨d, _, _, hpip, _, _, _, _⟩ :=
          Arena.reloadStep_inl_elim processR processC module a a1 h hstep
        rw [hpip, List.getElem?_set_ne (hni h (List.mem_cons_self _ _) )]
      | inr h =>
        obtain ⟨d, _, _, _, _, _, hre, _⟩ :=
          Arena.reloadStep_inr_elim processR processC module a a1 h hstep
        rw [hre]

theorem Arena.reloadList_get_compute_ne (processR : RD → Module → RP)
    (processC : CD → Module → CP) (module : Module)
    (l : List (Sum RenderHandle ComputeHandle)) :
    ∀ a a2 : Arena RD CD RP CP,
      Arena.reloadList processR processC module a l = some a2 →
      ∀ i : Nat, (∀ h : ComputeHandle, Sum.inr h ∈ l → h.idx ≠ i) →
        a2.compute.pipelines[i]? = a.compute.pipelines[i]? := by
  induction l with
  | nil =>
    intro a a2 hrun i _
    simp only [Arena.reloadList, Option.some.injEq] at hrun
    subst hrun; rfl
  | cons e rest ih =>
    intro a a2 hrun i hni
    simp only [Arena.reloadList] at hrun
    cases hstep : Arena.reloadStep processR processC module a e with
    | none => rw [hstep] at hrun; simp at hrun
    | some a1 =>
      rw [hstep] at hrun
      have hrest := ih a1 a2 hrun i fun h hm => hni h (List.mem_cons_of_mem _ hm)
      rw [hrest]
      cases e with
      | inl h =>
        obtain ⟨d, _, _, _, _, _, hco, _⟩ :=
          Arena.reloadStep_inl_elim processR processC module a a1 h hstep
        rw [hco]
      | inr h =>
        obtain ⟨d, _, _, hpip, _, _, _, _⟩ :=
          Arena.reloadStep_inr_elim processR processC module a a1 h hstep
        rw [hpip, List.getElem?_set_ne (hni h (List.mem_cons_self _ _))]

theorem Arena.reloadList_get_render_mem (processR : RD → Module → RP)
    (processC : CD → Module → CP) (module : Module)
    (l : List (Sum RenderHandle ComputeHandle)) :
    ∀ a a2 : Arena RD CD RP CP,
      Arena.reloadList processR processC module a l = some a2 →
      ∀ (h : RenderHandle) (d : RD), Sum.inl h ∈ l →
        alookup a.render.descriptors h = some d →
        a2.render.pipelines[h.idx]? = some (processR d module) := by
  induction l with
  | nil =>
    intro a a2 _ h d hm _
    exact absurd hm (List.not_mem_nil _)
  | cons e rest ih =>
    intro a a2 hrun h d hm hdesc
    simp only [Arena.reloadList] at hrun
    cases hstep : Arena.reloadStep processR processC module a e with
    | none => rw [hstep] at hrun; simp at hrun
    | some a1 =>
      rw [hstep] at hrun
      rcases Classical.em ((Sum.inl h : Sum RenderHandle ComputeHandle) ∈ rest) with hmem | hmem
      · refine ih a1 a2 hrun h d hmem ?_
        cases e with
        | inl h1 =>
          obtain ⟨d1, _, _, _, hdesc1, _, _, _⟩ :=
            Arena.reloadStep_inl_elim processR processC module a a1 h1 hstep
          rw [hdesc1, hdesc]
        | inr h1 =>
          obtain ⟨d1, _, _, _, _, _, hre, _⟩ :=
            Arena.reloadStep_inr_elim processR processC module a a1 h1 hstep
          rw [hre, hdesc]
      · have he : e = Sum.inl h := by
          rcases List.mem_cons.1 hm with h1 | h1
          · exact h1.symm
          · exact absurd h1 hmem
        subst he
        obtain ⟨d1, hdesc1, hlt, hpip, _, _, _, _⟩ :=
          Arena.reloadStep_inl_elim processR processC module a a1 h hstep
        have hd1 : d1 = d := by
          rw [hdesc] at hdesc1
          exact (Option.some.injEq _ _ ▸ hdesc1).symm ▸ rfl
        subst hd1
        have hni : ∀ h1 : RenderHandle, Sum.inl h1 ∈ rest → h1.idx ≠ h.idx := by
          intro h1 hm1 hidx
          have : h1 = h := by
            cases h1; cases h
            simp only [RenderHandle.mk.injEq]
            simpa using hidx
          exact hmem (this ▸ hm1)
        rw [Arena.reloadList_get_render_ne processR processC module rest a1 a2 hrun h.idx hni,
          hpip]
        simp [List.getElem?_set, hlt]

theorem Arena.reloadList_get_compute_mem (processR : RD → Module → RP)
    (processC : CD → Module → CP) (module : Module)
    (l : List (Sum RenderHandle ComputeHandle)) :
    ∀ a a2 : Arena RD CD RP CP,
      Arena.reloadList processR processC module a l = some a2 →
      ∀ (h : ComputeHandle) (d : CD), Sum.inr h ∈ l →
        alookup a.compute.descriptors h = some d →
        a2.compute.pipelines[h.idx]? = some (processC d module) := by
  induction l with
  | nil =>
    intro a a2 _ h d hm _
    exact absurd hm (List.not_mem_nil _)
  | cons e rest ih =>
    intro a a2 hrun h d hm hdesc
    simp only [Arena.reloadList] at hrun
    cases hstep : Arena.reloadStep processR processC module a e with
    | none => rw [hstep] at hrun; simp at hrun
    | some a1 =>
      rw [hstep] at hrun
      rcases Classical.em ((Sum.inr h : Sum RenderHandle ComputeHandle) ∈ rest) with hmem | hmem
      · refine ih a1 a2 hrun h d hmem ?_
        cases e with
        | inl h1 =>
          obtain ⟨d1, _, _, _, _, _, hco, _⟩ :=
            Arena.reloadStep_inl_elim processR processC module a a1 h1 hstep
          rw [hco, hdesc]
        | inr h1 =>
          obtain ⟨d1, _, _, _, hdesc1, _, _, _⟩ :=
            Arena.reloadStep_inr_elim processR processC module a a1 h1 hstep
          rw [hdesc1, hdesc]
      · have he : e = Sum.inr h := by
          rcases List.mem_cons.1 hm with h1 | h1
          · exact h1.symm
          · exact absurd h1 hmem
        subst he
        obtain ⟨d1, hdesc1, hlt, hpip, _, _, _, _⟩ :=
          Arena.reloadStep_inr_elim processR processC module a a1 h hstep
        have hd1 : d1 = d := by
          rw [hdesc] at hdesc1
          exact (Option.some.injEq _ _ ▸ hdesc1).symm ▸ rfl
        subst hd1
        have hni : ∀ h1 : ComputeHandle, Sum.inr h1 ∈ rest → h1.idx ≠ h.idx := by
          intro h1 hm1 hidx
          have : h1 = h := by
            cases h1; cases h
            simp only [ComputeHandle.mk.injEq]
            simpa using hidx
          exact hmem (this ▸ hm1)
        rw [Arena.reloadList_get_compute_ne processR processC module rest a1 a2 hrun h.idx hni,
          hpip]
        simp [List.getElem?_set, hlt]

/-! ### Internal consistency invariant -/

/-- Well-formedness of a kind-specific arena: every cached handle is a live
slot whose stored descriptor is exactly the cache key, and every key of the
descriptor map is a live slot. -/
def RenderArena.WF (a : RenderArena RD RP) : Prop :=
  (∀ (d : RD) (h : RenderHandle), alookup a.cached d = some h →
      h.idx < a.pipelines.length ∧ alookup a.descriptors h = some d) ∧
  (∀ (h : RenderHandle) (d : RD), (h, d) ∈ a.descriptors → h.idx < a.pipelines.length)

/-- Well-formedness of the compute arena. -/
def ComputeArena.WF (a : ComputeArena CD CP) : Prop :=
  (∀ (d : CD) (h : ComputeHandle), alookup a.cached d = some h →
      h.idx < a.pipelines.length ∧ alookup a.descriptors h = some d) ∧
  (∀ (h : ComputeHandle) (d : CD), (h, d) ∈ a.descriptors → h.idx < a.pipelines.length)

/-- Well-formedness of the whole arena: both kind arenas are well formed and
every handle registered in the path registry is a live slot with a stored
descriptor. -/
def Arena.WF (a : Arena RD CD RP CP) : Prop :=
  a.render.WF ∧ a.compute.WF ∧
  ∀ (p : String) (l : List (Sum RenderHandle ComputeHandle)),
    alookup a.path_mapping p = some l →
    (∀ h : RenderHandle, Sum.inl h ∈ l →
        h.idx < a.render.pipelines.length ∧ (alookup a.render.descriptors h).isSome) ∧
    (∀ h : ComputeHandle, Sum.inr h ∈ l →
        h.idx < a.compute.pipelines.length ∧ (alookup a.compute.descriptors h).isSome)

theorem alookup_cons_isSome {α β : Type} [DecidableEq α] (k a : α) (v : β)
    (l : List (α × β)) (h : (alookup l a).isSome) :
    (alookup ((k, v) :: l) a).isSome := by
  rw [alookup_cons]
  by_cases hk : k = a
  · simp [hk]
  · simp [hk, h]

theorem Arena.process_render_pipeline_hit (processR : RD → Module → RP) (module : Module)
    (a : Arena RD CD RP CP) (p : String) (d : RD) (h : RenderHandle)
    (hhit : alookup a.render.cached d = some h) :
    a.process_render_pipeline processR module p d =
      (h, { a with path_mapping := pushEntry a.path_mapping p (Sum.inl h) }, []) := by
  simp [Arena.process_render_pipeline, RenderArena.render_process_pipeline_hit processR module _ _ _ hhit]

theorem Arena.process_render_pipeline_miss (processR : RD → Module → RP) (module : Module)
    (a : Arena RD CD RP CP) (p : String) (d : RD)
    (hmiss : alookup a.render.cached d = none) :
    a.process_render_pipeline processR module p d =
      (⟨a.render.pipelines.length⟩,
        { render :=
            { pipelines := a.render.pipelines ++ [processR d module]
              descriptors := (⟨a.render.pipelines.length⟩, d) :: a.render.descriptors
              cached := (d, ⟨a.render.pipelines.length⟩) :: a.render.cached }
          compute := a.compute
          path_mapping :=
            pushEntry a.path_mapping p (Sum.inl ⟨a.render.pipelines.length⟩) },
        [d]) := by
  simp [Arena.process_render_pipeline, RenderArena.render_process_pipeline_miss processR module _ _ hmiss]

theorem Arena.process_compute_pipeline_hit (processC : CD → Module → CP) (module : Module)
    (a : Arena RD CD RP CP) (p : String) (d : CD) (h : ComputeHandle)
    (hhit : alookup a.compute.cached d = some h) :
    a.process_compute_pipeline processC module p d =
      (h, { a with path_mapping := pushEntry a.path_mapping p (Sum.inr h) }, []) := by
  simp [Arena.process_compute_pipeline, ComputeArena.compute_process_pipeline_hit processC module _ _ _ hhit]

theorem Arena.process_compute_pipeline_miss (processC : CD → Module → CP) (module : Module)
    (a : Arena RD CD RP CP) (p : String) (d : CD)
    (hmiss : alookup a.compute.cached d = none) :
    a.process_compute_pipeline processC module p d =
      (⟨a.compute.pipelines.length⟩,
        { render := a.render
          compute :=
            { pipelines := a.compute.pipelines ++ [processC d module]
              descriptors := (⟨a.compute.pipelines.length⟩, d) :: a.compute.descriptors
              cached := (d, ⟨a.compute.pipelines.length⟩) :: a.compute.cached }
          path_mapping :=
            pushEntry a.path_mapping p (Sum.inr ⟨a.compute.pipelines.length⟩) },
        [d]) := by
  simp [Arena.process_compute_pipeline, ComputeArena.compute_process_pipeline_miss processC module _ _ hmiss]

theorem Arena.WF_new : (Arena.new : Arena RD CD RP CP).WF := by
  refine ⟨⟨?_, ?_⟩, ⟨?_, ?_⟩, ?_⟩
  · intro d h hq
    exact absurd hq (by simp [Arena.new, alookup])
  · intro h d hm
    exact absurd hm (by simp [Arena.new])
  · intro d h hq
    exact absurd hq (by simp [Arena.new, alookup])
  · intro h d hm
    exact absurd hm (by simp [Arena.new])
  · intro p l hq
    exact absurd hq (by simp [Arena.new, alookup])

theorem Arena.WF_process_render (processR : RD → Module → RP) (module : Module)
    (a : Arena RD CD RP CP) (p : String) (d : RD) (hwf : a.WF) :
    ((a.process_render_pipeline processR module p d).2.1).WF := by
  obtain ⟨⟨hr1, hr2⟩, hcw, hreg⟩ := hwf
  cases hcache : alookup a.render.cached d with
  | some h =>
    rw [Arena.process_render_pipeline_hit processR module a p d h hcache]
    refine ⟨⟨hr1, hr2⟩, hcw, ?_⟩
    intro p0 l0 hl0
    by_cases hp0 : p0 = p
    · subst hp0
      rw [alookup_pushEntry_self] at hl0
      have hl0e : (alookup a.path_mapping p0).getD [] ++ [Sum.inl h] = l0 :=
        Option.some.inj hl0
      constructor
      · intro h1 hm1
        rw [← hl0e] at hm1
        rcases List.mem_append.1 hm1 with hold | hnew
        · cases hpm : alookup a.path_mapping p0 with
          | none => rw [hpm] at hold; simp at hold
          | some lold =>
            rw [hpm] at hold
            exact (hreg p0 lold hpm).1 h1 hold
        · have : Sum.inl h1 = (Sum.inl h : Sum RenderHandle ComputeHandle) := by
            simpa using hnew
          have hh : h1 = h := by injection this
          subst hh
          obtain ⟨hlt, hdesc⟩ := hr1 d h1 hcache
          exact ⟨hlt, by rw [hdesc]; rfl⟩
      · intro h1 hm1
        rw [← hl0e] at hm1
        rcases List.mem_append.1 hm1 with hold | hnew
        · cases hpm : alookup a.path_mapping p0 with
          | none => rw [hpm] at hold; simp at hold
          | some lold =>
            rw [hpm] at hold
            exact (hreg p0 lold hpm).2 h1 hold
        · simp at hnew
    · rw [alookup_pushEntry_ne _ _ _ _ hp0] at hl0
      exact hreg p0 l0 hl0
  | none =>
    rw [Arena.process_render_pipeline_miss processR module a p d hcache]
    have hlen : ∀ i : Nat, i < a.render.pipelines.length →
        i < (a.render.pipelines ++ [processR d module]).length := by
      intro i hi
      rw [List.length_append]
      exact Nat.lt_succ_of_lt (by simpa using hi)
    have hself : (⟨a.render.pipelines.length⟩ : RenderHandle).idx <
        (a.render.pipelines ++ [processR d module]).length := by
      simp [List.length_append]
    refine ⟨⟨?_, ?_⟩, hcw, ?_⟩
    · intro d0 h0 hq
      rw [alookup_cons] at hq
      by_cases hd0 : d = d0
      · subst hd0
        have hh0 : (⟨a.render.pipelines.length⟩ : RenderHandle) = h0 := by
          simpa using hq
        subst hh0
        exact ⟨hself, by simp [alookup_cons]⟩
      · rw [if_neg hd0] at hq
        obtain ⟨hlt, hdesc⟩ := hr1 d0 h0 hq
        have hne : (⟨a.render.pipelines.length⟩ : RenderHandle) ≠ h0 := by
          intro he
          rw [← he] at hlt
          exact Nat.lt_irrefl _ hlt
        exact ⟨hlen _ hlt, by rw [alookup_cons, if_neg hne]; exact hdesc⟩
    · intro h0 d0 hm
      rcases List.mem_cons.1 hm with hh | hold
      · have : h0 = (⟨a.render.pipelines.length⟩ : RenderHandle) := congrArg Prod.fst hh
        rw [this]
        exact hself
      · exact hlen _ (hr2 h0 d0 hold)
    · intro p0 l0 hl0
      by_cases hp0 : p0 = p
      · subst hp0
        rw [alookup_pushEntry_self] at hl0
        have hl0e : (alookup a.path_mapping p0).getD [] ++
            [Sum.inl ⟨a.render.pipelines.length⟩] = l0 := Option.some.inj hl0
        constructor
        · intro h1 hm1
          rw [← hl0e] at hm1
          rcases List.mem_append.1 hm1 with hold | hnew
          · cases hpm : alookup a.path_mapping p0 with
            | none => rw [hpm] at hold; simp at hold
            | some lold =>
              rw [hpm] at hold
              obtain ⟨hlt, hs⟩ := (hreg p0 lold hpm).1 h1 hold
              exact ⟨hlen _ hlt, alookup_cons_isSome _ _ _ _ hs⟩
          · have : Sum.inl h1 =
                (Sum.inl ⟨a.render.pipelines.length⟩ : Sum RenderHandle ComputeHandle) := by
              simpa using hnew
            have hh : h1 = ⟨a.render.pipelines.length⟩ := by injection this
            subst hh
            exact ⟨hself, by simp [alookup_cons]⟩
        · intro h1 hm1
          rw [← hl0e] at hm1
          rcases List.mem_append.1 hm1 with hold | hnew
          · cases hpm : alookup a.path_mapping p0 with
            | none => rw [hpm] at hold; simp at hold
            | some lold =>
              rw [hpm] at hold
              exact (hreg p0 lold hpm).2 h1 hold
          · simp at hnew
      · rw [alookup_pushEntry_ne _ _ _ _ hp0] at hl0
        obtain ⟨hA, hB⟩ := hreg p0 l0 hl0
        constructor
        · intro h1 hm1
          obtain ⟨hlt, hs⟩ := hA h1 hm1
          exact ⟨hlen _ hlt, alookup_cons_isSome _ _ _ _ hs⟩
        · exact hB

theorem Arena.WF_process_compute (processC : CD → Module → CP) (module : Module)
    (a : Arena RD CD RP CP) (p : String) (d : CD) (hwf : a.WF) :
    ((a.process_compute_pipeline processC module p d).2.1).WF := by
  obtain ⟨hrw, ⟨hc1, hc2⟩, hreg⟩ := hwf
  cases hcache : alookup a.compute.cached d with
  | some h =>
    rw [Arena.process_compute_pipeline_hit processC module a p d h hcache]
    refine ⟨hrw, ⟨hc1, hc2⟩, ?_⟩
    intro p0 l0 hl0
    by_cases hp0 : p0 = p
    · subst hp0
      rw [alookup_pushEntry_self] at hl0
      have hl0e : (alookup a.path_mapping p0).getD [] ++ [Sum.inr h] = l0 :=
        Option.some.inj hl0
      constructor
      · intro h1 hm1
        rw [← hl0e] at hm1
        rcases List.mem_append.1 hm1 with hold | hnew
        · cases hpm : alookup a.path_mapping p0 with
          | none => rw [hpm] at hold; simp at hold
          | some lold =>
            rw [hpm] at hold
            exact (hreg p0 lold hpm).1 h1 hold
        · simp at hnew
      · intro h1 hm1
        rw [← hl0e] at hm1
        rcases List.mem_append.1 hm1 with hold | hnew
        · cases hpm : alookup a.path_mapping p0 with
          | none => rw [hpm] at hold; simp at hold
          | some lold =>
            rw [hpm] at hold
            exact (hreg p0 lold hpm).2 h1 hold
        · have : Sum.inr h1 = (Sum.inr h : Sum RenderHandle ComputeHandle) := by
            simpa using hnew
          have hh : h1 = h := by injection this
          subst hh
          obtain ⟨hlt, hdesc⟩ := hc1 d h1 hcache
          exact ⟨hlt, by rw [hdesc]; rfl⟩
    · rw [alookup_pushEntry_ne _ _ _ _ hp0] at hl0
      exact hreg p0 l0 hl0
  | none =>
    rw [Arena.process_compute_pipeline_miss processC module a p d hcache]
    have hlen : ∀ i : Nat, i < a.compute.pipelines.length →
        i < (a.compute.pipelines ++ [processC d module]).length := by
      intro i hi
      rw [List.length_append]
      exact Nat.lt_succ_of_lt (by simpa using hi)
    have hself : (⟨a.compute.pipelines.length⟩ : ComputeHandle).idx <
        (a.compute.pipelines ++ [processC d module]).length := by
      simp [List.length_append]
    refine ⟨hrw, ⟨?_, ?_⟩, ?_⟩
    · intro d0 h0 hq
      rw [alookup_cons] at hq
      by_cases hd0 : d = d0
      · subst hd0
        have hh0 : (⟨a.compute.pipelines.length⟩ : ComputeHandle) = h0 := by
          simpa using hq
        subst hh0
        exact ⟨hself, by simp [alookup_cons]⟩
      · rw [if_neg hd0] at hq
        obtain ⟨hlt, hdesc⟩ := hc1 d0 h0 hq
        have hne : (⟨a.compute.pipelines.length⟩ : ComputeHandle) ≠ h0 := by
          intro he
          rw [← he] at hlt
          exact Nat.lt_irrefl _ hlt
        exact ⟨hlen _ hlt, by rw [alookup_cons, if_neg hne]; exact hdesc⟩
    · intro h0 d0 hm
      rcases List.mem_cons.1 hm with hh | hold
      · have : h0 = (⟨a.compute.pipelines.length⟩ : ComputeHandle) := congrArg Prod.fst hh
        rw [this]
        exact hself
      · exact hlen _ (hc2 h0 d0 hold)
    · intro p0 l0 hl0
      by_cases hp0 : p0 = p
      · subst hp0
        rw [alookup_pushEntry_self] at hl0
        have hl0e : (alookup a.path_mapping p0).getD [] ++
            [Sum.inr ⟨a.compute.pipelines.length⟩] = l0 := Option.some.inj hl0
        constructor
        · intro h1 hm1
          rw [← hl0e] at hm1
          rcases List.mem_append.1 hm1 with hold | hnew
          · cases hpm : alookup a.path_mapping p0 with
            | none => rw [hpm] at hold; simp at hold
            | some lold =>
              rw [hpm] at hold
              exact (hreg p0 lold hpm).1 h1 hold
          · simp at hnew
        · intro h1 hm1
          rw [← hl0e] at hm1
          rcases List.mem_append.1 hm1 with hold | hnew
          · cases hpm : alookup a.path_mapping p0 with
            | none => rw [hpm] at hold; simp at hold
            | some lold =>
              rw [hpm] at hold
              obtain ⟨hlt, hs⟩ := (hreg p0 lold hpm).2 h1 hold
              exact ⟨hlen _ hlt, alookup_cons_isSome _ _ _ _ hs⟩
          · have : Sum.inr h1 =
                (Sum.inr ⟨a.compute.pipelines.length⟩ : Sum RenderHandle ComputeHandle) := by
              simpa using hnew
            have hh : h1 = ⟨a.compute.pipelines.length⟩ := by injection this
            subst hh
            exact ⟨hself, by simp [alookup_cons]⟩
      · rw [alookup_pushEntry_ne _ _ _ _ hp0] at hl0
        obtain ⟨hA, hB⟩ := hreg p0 l0 hl0
        constructor
        · exact hA
        · intro h1 hm1
          obtain ⟨hlt, hs⟩ := hB h1 hm1
          exact ⟨hlen _ hlt, alookup_cons_isSome _ _ _ _ hs⟩

theorem Arena.WF_reload (processR : RD → Module → RP) (processC : CD → Module → CP)
    (module : Module) (a a2 : Arena RD CD RP CP) (p : String) (hwf : a.WF)
    (hrel : a.reload_pipelines processR processC module p = some a2) : a2.WF := by
  unfold Arena.reload_pipelines at hrel
  cases hl : alookup a.path_mapping p with
  | none => rw [hl] at hrel; simp at hrel
  | some l =>
    rw [hl] at hrel
    obtain ⟨hd, hc, hlen, hdd, hcc, hclen, hpm⟩ :=
      Arena.reloadList_frame processR processC module l a a2 hrel
    obtain ⟨⟨hr1, hr2⟩, ⟨hc1, hc2⟩, hreg⟩ := hwf
    refine ⟨⟨?_, ?_⟩, ⟨?_, ?_⟩, ?_⟩
    · intro d0 h0 hq
      rw [hc] at hq
      rw [hlen, hd]
      exact hr1 d0 h0 hq
    · intro h0 d0 hm
      rw [hd] at hm
      rw [hlen]
      exact hr2 h0 d0 hm
    · intro d0 h0 hq
      rw [hcc] at hq
      rw [hclen, hdd]
      exact hc1 d0 h0 hq
    · intro h0 d0 hm
      rw [hdd] at hm
      rw [hclen]
      exact hc2 h0 d0 hm
    · intro p0 l0 hq
      rw [hpm] at hq
      obtain ⟨hA, hB⟩ := hreg p0 l0 hq
      constructor
      · intro h1 hm1
        obtain ⟨hlt, hs⟩ := hA h1 hm1
        rw [hlen, hd]
        exact ⟨hlt, hs⟩
      · intro h1 hm1
        obtain ⟨hlt, hs⟩ := hB h1 hm1
        rw [hclen, hdd]
        exact ⟨hlt, hs⟩

/-! ### Spec-modelled reload driver -/

/-- Errors of the reload driver, following the spec's error kinds. -/
inductive ReloadError where
  | shaderCompileError
  | unknownPath
deriving DecidableEq, Repr

/-- Modelled from the spec: the reload driver reacting to a file-change event
is not among the sources (the watch-event handler and the module creation
helper `crate::utils::create_shader_module_with_path` live outside `src`).
Per spec §4.6/§7 it recompiles the module from `path` exactly once, reports
`ShaderCompileError` on failure while leaving every pipeline untouched, and on
success delegates to `Arena::reload_pipelines`, whose panic on an unregistered
path surfaces as `UnknownPath`. -/
def Arena.reload (compile : String → Option Module) (processR : RD → Module → RP)
    (processC : CD → Module → CP) (a : Arena RD CD RP CP) (path : String) :
    Arena RD CD RP CP × Option ReloadError :=
  match compile path with
  | none => (a, some ReloadError.shaderCompileError)
  | some module =>
    match a.reload_pipelines processR processC module path with
    | none => (a, some ReloadError.unknownPath)
    | some a2 => (a2, none)

/-! ### Small auxiliary facts -/

theorem alookup_mem {α β : Type} [DecidableEq α] (l : List (α × β)) (k : α) (v : β)
    (h : alookup l k = some v) : (k, v) ∈ l := by
  induction l with
  | nil => exact absurd h (by simp [alookup])
  | cons p rest ih =>
    obtain ⟨k1, v1⟩ := p
    rw [alookup_cons] at h
    by_cases hk : k1 = k
    · subst hk
      rw [if_pos rfl] at h
      have : v1 = v := Option.some.inj h
      subst this
      exact List.mem_cons_self _ _
    · rw [if_neg hk] at h
      exact List.mem_cons_of_mem _ (ih h)

theorem getElem?_isSome_iff_lt {α : Type} (l : List α) (i : Nat) :
    (l[i]?).isSome ↔ i < l.length := by
  constructor
  · intro h
    by_contra hn
    rw [List.getElem?_eq_none (Nat.le_of_not_lt hn)] at h
    simp at h
  · intro h
    rw [List.getElem?_eq_getElem h]
    rfl

/-! ### Concrete instantiation used by the witnesses

Descriptors and modules are numbered; the opaque backend materialization is
instantiated by pairing, so a concrete pipeline object records which
descriptor and which module version built it. -/

/-- Witness backend for render pipelines. -/
def natPr : Nat → Nat → Nat × Nat := fun d m => (d, m)

/-- Witness backend for compute pipelines. -/
def natPc : Nat → Nat → Nat × Nat := fun d m => (d + 1, m)

/-- Witness compile step that always succeeds with module version 0. -/
def natCompile : String → Option Nat := fun _ => some 0

/-- Empty witness arena. -/
def arena0 : Arena Nat Nat (Nat × Nat) (Nat × Nat) := Arena.new

/-- Witness arena after registering render descriptor 5 under `a.wgsl`. -/
def arena1 : Arena Nat Nat (Nat × Nat) (Nat × Nat) :=
  (arena0.process_render_pipeline natPr 0 "a.wgsl" 5).2.1

/-- Witness arena after additionally registering compute descriptor 7 under
`a.wgsl`. -/
def arena2 : Arena Nat Nat (Nat × Nat) (Nat × Nat) :=
  (arena1.process_compute_pipeline natPc 0 "a.wgsl" 7).2.1

/-- The value of `arena2` after reloading `a.wgsl` with module version 1. -/
def arena3 : Arena Nat Nat (Nat × Nat) (Nat × Nat) :=
  { render := { pipelines := [(5, 1)], descriptors := [(⟨0⟩, 5)], cached := [(5, ⟨0⟩)] }
    compute := { pipelines := [(8, 1)], descriptors := [(⟨0⟩, 7)], cached := [(7, ⟨0⟩)] }
    path_mapping := [("a.wgsl", [Sum.inl ⟨0⟩, Sum.inr ⟨0⟩])] }

/-! ### Claims -/

/-- C1: processing the same path with two structurally equal descriptors
returns the same handle both times, and across the two calls the backend
materialize step runs exactly once for that descriptor value (on the first,
cache-missing call); the analogous property holds for compute descriptors.
The `from_path` entry point is the `process` call on the module compiled from
the path. -/
theorem claim1_dedup_single_materialize
    (compile : String → Option Module) (processR : RD → Module → RP)
    (processC : CD → Module → CP) (a : Arena RD CD RP CP) (p : String)
    (d : RD) (e : CD) (m : Module)
    (hcompile : compile p = some m)
    (hfreshR : alookup a.render.cached d = none)
    (hfreshC : alookup a.compute.cached e = none) :
    (a.process_render_pipeline_from_path compile processR p d =
        some (a.process_render_pipeline processR m p d) ∧
      ((a.process_render_pipeline processR m p d).2.1.process_render_pipeline
          processR m p d).1 = (a.process_render_pipeline processR m p d).1 ∧
      (a.process_render_pipeline processR m p d).2.2 ++
        ((a.process_render_pipeline processR m p d).2.1.process_render_pipeline
            processR m p d).2.2 = [d]) ∧
    (a.process_compute_pipeline_from_path compile processC p e =
        some (a.process_compute_pipeline processC m p e) ∧
      ((a.process_compute_pipeline processC m p e).2.1.process_compute_pipeline
          processC m p e).1 = (a.process_compute_pipeline processC m p e).1 ∧
      (a.process_compute_pipeline processC m p e).2.2 ++
        ((a.process_compute_pipeline processC m p e).2.1.process_compute_pipeline
            processC m p e).2.2 = [e]) := by
  constructor
  · refine ⟨by simp [Arena.process_render_pipeline_from_path, hcompile], ?_, ?_⟩ <;>
      rw [Arena.process_render_pipeline_miss processR m a p d hfreshR] <;>
      simp [Arena.process_render_pipeline, RenderArena.process_pipeline, alookup_cons]
  · refine ⟨by simp [Arena.process_compute_pipeline_from_path, hcompile], ?_, ?_⟩ <;>
      rw [Arena.process_compute_pipeline_miss processC m a p e hfreshC] <;>
      simp [Arena.process_compute_pipeline, ComputeArena.process_pipeline, alookup_cons]

/-- Witness for C1 at a concrete input. -/
theorem claim1_witness :
    natCompile "a.wgsl" = some 0 ∧
    alookup (arena0 : Arena Nat Nat (Nat × Nat) (Nat × Nat)).render.cached 5 = none ∧
    alookup arena0.compute.cached 7 = none ∧
    (((arena0.process_render_pipeline natPr 0 "a.wgsl" 5).2.1.process_render_pipeline
        natPr 0 "a.wgsl" 5).1 = (arena0.process_render_pipeline natPr 0 "a.wgsl" 5).1 ∧
      (arena0.process_render_pipeline natPr 0 "a.wgsl" 5).2.2 ++
        ((arena0.process_render_pipeline natPr 0 "a.wgsl" 5).2.1.process_render_pipeline
            natPr 0 "a.wgsl" 5).2.2 = [5]) :=
  ⟨rfl, rfl, rfl,
    (claim1_dedup_single_materialize natCompile natPr natPc arena0 "a.wgsl" 5 7 0
        rfl rfl rfl).1.2⟩

/-- C2: after a reload of path `p` that succeeds, every handle that was valid
stays valid, and every handle registered under `p` yields, on its next
`get_pipeline` call, precisely the pipeline materialized from its stored
descriptor and the recompiled module; the handle value itself is unchanged and
the new object sits in the existing slot. -/
theorem claim2_reload_updates_in_place
    (processR : RD → Module → RP) (processC : CD → Module → CP) (module : Module)
    (a a2 : Arena RD CD RP CP) (p : String)
    (l : List (Sum RenderHandle ComputeHandle))
    (hl : alookup a.path_mapping p = some l)
    (hrel : a.reload_pipelines processR processC module p = some a2) :
    (∀ h : RenderHandle, (a.get_render_pipeline h).isSome →
        (a2.get_render_pipeline h).isSome) ∧
    (∀ h : ComputeHandle, (a.get_compute_pipeline h).isSome →
        (a2.get_compute_pipeline h).isSome) ∧
    (∀ (h : RenderHandle) (d : RD), Sum.inl h ∈ l →
        a.get_render_descriptor h = some d →
        a2.get_render_pipeline h = some (processR d module)) ∧
    (∀ (h : ComputeHandle) (d : CD), Sum.inr h ∈ l →
        a.get_compute_descriptor h = some d →
        a2.get_compute_pipeline h = some (processC d module)) := by
  unfold Arena.reload_pipelines at hrel
  rw [hl] at hrel
  obtain ⟨_, _, hlen, _, _, hclen, _⟩ :=
    Arena.reloadList_frame processR processC module l a a2 hrel
  refine ⟨?_, ?_, ?_, ?_⟩
  · intro h hs
    rw [Arena.get_render_pipeline, getElem?_isSome_iff_lt] at hs ⊢
    rw [hlen]
    exact hs
  · intro h hs
    rw [Arena.get_compute_pipeline, getElem?_isSome_iff_lt] at hs ⊢
    rw [hclen]
    exact hs
  · intro h d hm hdesc
    exact Arena.reloadList_get_render_mem processR processC module l a a2 hrel h d hm hdesc
  · intro h d hm hdesc
    exact Arena.reloadList_get_compute_mem processR processC module l a a2 hrel h d hm hdesc

/-- Witness for C2 at a concrete input. -/
theorem claim2_witness :
    alookup arena2.path_mapping "a.wgsl" = some [Sum.inl ⟨0⟩, Sum.inr ⟨0⟩] ∧
    arena2.reload_pipelines natPr natPc 1 "a.wgsl" = some arena3 ∧
    ((Sum.inl (⟨0⟩ : RenderHandle) : Sum RenderHandle ComputeHandle) ∈
        [Sum.inl (⟨0⟩ : RenderHandle), Sum.inr (⟨0⟩ : ComputeHandle)] ∧
      arena2.get_render_descriptor ⟨0⟩ = some 5 ∧
      arena3.get_render_pipeline ⟨0⟩ = some (natPr 5 1)) :=
  ⟨by decide, by decide,
    List.mem_cons_self _ _,
    by decide,
    (claim2_reload_updates_in_place natPr natPc 1 arena2 arena3 "a.wgsl"
        [Sum.inl ⟨0⟩, Sum.inr ⟨0⟩] (by decide) (by decide)).2.2.1 ⟨0⟩ 5
      (List.mem_cons_self _ _) (by decide)⟩

/-- C3: when the shader compile step fails during a reload, the driver
reports `ShaderCompileError` and leaves the arena — in particular every
pipeline registered under the path — exactly as it was. -/
theorem claim3_failed_reload_keeps_pipelines
    (compile : String → Option Module) (processR : RD → Module → RP)
    (processC : CD → Module → CP) (a : Arena RD CD RP CP) (p : String)
    (hfail : compile p = none) :
    (a.reload compile processR processC p).2 = some ReloadError.shaderCompileError ∧
    (a.reload compile processR processC p).1 = a ∧
    (∀ h : RenderHandle,
        (a.reload compile processR processC p).1.get_render_pipeline h =
          a.get_render_pipeline h) ∧
    (∀ h : ComputeHandle,
        (a.reload compile processR processC p).1.get_compute_pipeline h =
          a.get_compute_pipeline h) := by
  refine ⟨?_, ?_, ?_, ?_⟩ <;> simp [Arena.reload, hfail]

/-- Witness for C3 at a concrete input. -/
theorem claim3_witness :
    (fun _ : String => (none : Option Nat)) "a.wgsl" = none ∧
    (arena2.reload (fun _ => none) natPr natPc "a.wgsl").2 =
      some ReloadError.shaderCompileError ∧
    (arena2.reload (fun _ => none) natPr natPc "a.wgsl").1 = arena2 :=
  ⟨rfl,
    (claim3_failed_reload_keeps_pipelines (fun _ => none) natPr natPc arena2 "a.wgsl" rfl).1,
    (claim3_failed_reload_keeps_pipelines (fun _ => none) natPr natPc arena2 "a.wgsl" rfl).2.1⟩

/-- C4 counterexample: a second registration of render descriptor 5 under the
same path `a.wgsl` is a cache hit, yet the call still mutates the Path
Registry: the handle is appended again, so the registry differs before and
after the call. -/
theorem claim4_counterexample :
    alookup arena1.render.cached 5 = some ⟨0⟩ ∧
    (arena1.process_render_pipeline natPr 0 "a.wgsl" 5).2.1.path_mapping ≠
      arena1.path_mapping := by
  refine ⟨by decide, by decide⟩

/-- C4 amended: on a cache hit the handle table, descriptor store and dedup
caches are untouched, only the cached handle is returned and nothing is
materialized — but the call still appends the tagged handle to the Path
Registry entry of the supplied path. -/
theorem claim4_cache_hit_appends_registry_only
    (processR : RD → Module → RP) (processC : CD → Module → CP) (m : Module)
    (a : Arena RD CD RP CP) (p : String) (d : RD) (e : CD)
    (h : RenderHandle) (hcp : ComputeHandle)
    (hhitR : alookup a.render.cached d = some h)
    (hhitC : alookup a.compute.cached e = some hcp) :
    a.process_render_pipeline processR m p d =
      (h, { a with path_mapping := pushEntry a.path_mapping p (Sum.inl h) }, []) ∧
    a.process_compute_pipeline processC m p e =
      (hcp, { a with path_mapping := pushEntry a.path_mapping p (Sum.inr hcp) }, []) :=
  ⟨Arena.process_render_pipeline_hit processR m a p d h hhitR,
    Arena.process_compute_pipeline_hit processC m a p e hcp hhitC⟩

/-- Witness for the amended C4 at a concrete input. -/
theorem claim4_witness :
    alookup arena2.render.cached 5 = some ⟨0⟩ ∧
    alookup arena2.compute.cached 7 = some ⟨0⟩ ∧
    arena2.process_render_pipeline natPr 0 "b.wgsl" 5 =
      (⟨0⟩,
        { arena2 with
            path_mapping := pushEntry arena2.path_mapping "b.wgsl" (Sum.inl ⟨0⟩) },
        []) :=
  ⟨by decide, by decide,
    (claim4_cache_hit_appends_registry_only natPr natPc 0 arena2 "b.wgsl" 5 7 ⟨0⟩ ⟨0⟩
        (by decide) (by decide)).1⟩

/-- C5 counterexample: descriptor 5 is first registered under `a.wgsl`; the
request under `b.wgsl` returns the shared handle, but `b.wgsl` also receives
a Path Registry entry for it, and a subsequent reload of `b.wgsl` does
re-materialize the shared pipeline (its object changes from module version 0
to version 1). -/
theorem claim5_counterexample :
    (arena1.process_render_pipeline natPr 0 "b.wgsl" 5).1 = ⟨0⟩ ∧
    alookup (arena1.process_render_pipeline natPr 0 "b.wgsl" 5).2.1.path_mapping
      "b.wgsl" = some [Sum.inl ⟨0⟩] ∧
    (arena1.process_render_pipeline natPr 0 "b.wgsl" 5).2.1.get_render_pipeline ⟨0⟩ =
      some (5, 0) ∧
    ((arena1.process_render_pipeline natPr 0 "b.wgsl" 5).2.1.reload_pipelines natPr
        natPc 1 "b.wgsl").map (fun x => x.get_render_pipeline ⟨0⟩) =
      some (some (5, 1)) := by
  refine ⟨by decide, by decide, by decide, by decide⟩

/-- C5 amended: both requests yield the single shared handle, but each call
registers the handle under the path it was supplied with, so both `p1` and
`p2` own a Path Registry entry containing it and a reload of either path
re-materializes the shared pipeline. -/
theorem claim5_alias_registered_under_both_paths
    (processR : RD → Module → RP) (processC : CD → Module → CP)
    (a : Arena RD CD RP CP) (p1 p2 : String) (d : RD) (m m2 : Module)
    (hfresh : alookup a.render.cached d = none)
    (hp1 : alookup a.path_mapping p1 = none)
    (hp2 : alookup a.path_mapping p2 = none)
    (hne : p1 ≠ p2) :
    ((a.process_render_pipeline processR m p1 d).2.1.process_render_pipeline
        processR m p2 d).1 = (a.process_render_pipeline processR m p1 d).1 ∧
    alookup ((a.process_render_pipeline processR m p1 d).2.1.process_render_pipeline
        processR m p2 d).2.1.path_mapping p2 =
      some [Sum.inl (a.process_render_pipeline processR m p1 d).1] ∧
    alookup ((a.process_render_pipeline processR m p1 d).2.1.process_render_pipeline
        processR m p2 d).2.1.path_mapping p1 =
      some [Sum.inl (a.process_render_pipeline processR m p1 d).1] ∧
    (((a.process_render_pipeline processR m p1 d).2.1.process_render_pipeline
        processR m p2 d).2.1.reload_pipelines processR processC m2 p2).map
      (fun x => x.get_render_pipeline (a.process_render_pipeline processR m p1 d).1) =
      some (some (processR d m2)) ∧
    (((a.process_render_pipeline processR m p1 d).2.1.process_render_pipeline
        processR m p2 d).2.1.reload_pipelines processR processC m2 p1).map
      (fun x => x.get_render_pipeline (a.process_render_pipeline processR m p1 d).1) =
      some (some (processR d m2)) := by
  rw [Arena.process_render_pipeline_miss processR m a p1 d hfresh]
  have hhit : alookup ((d, (⟨a.render.pipelines.length⟩ : RenderHandle)) ::
      a.render.cached) d = some ⟨a.render.pipelines.length⟩ := by
    simp [alookup_cons]
  have e1 : alookup (pushEntry a.path_mapping p1
      (Sum.inl (⟨a.render.pipelines.length⟩ : RenderHandle))) p2 = none := by
    rw [alookup_pushEntry_ne _ _ _ _ (Ne.symm hne)]
    exact hp2
  have e3 : alookup (pushEntry (pushEntry a.path_mapping p1
      (Sum.inl (⟨a.render.pipelines.length⟩ : RenderHandle))) p2
        (Sum.inl (⟨a.render.pipelines.length⟩ : RenderHandle))) p1 =
      some [Sum.inl ⟨a.render.pipelines.length⟩] := by
    rw [alookup_pushEntry_ne _ _ _ _ hne, alookup_pushEntry_self, hp1]
    rfl
  refine ⟨?_, ?_, ?_, ?_, ?_⟩
  · simp [Arena.process_render_pipeline, RenderArena.process_pipeline, alookup_cons]
  · simp only [Arena.process_render_pipeline, RenderArena.process_pipeline, hhit]
    rw [alookup_pushEntry_self, e1]
    rfl
  · simp only [Arena.process_render_pipeline, RenderArena.process_pipeline, hhit]
    exact e3
  · simp only [Arena.process_render_pipeline, RenderArena.process_pipeline, hhit]
    simp [Arena.reload_pipelines, alookup_pushEntry_self, e1, Arena.reloadList,
      Arena.reloadStep, RenderArena.reload_pipeline, alookup_cons,
      Arena.get_render_pipeline, List.getElem?_set, List.length_append]
  · simp only [Arena.process_render_pipeline, RenderArena.process_pipeline, hhit]
    simp [Arena.reload_pipelines, e3, Arena.reloadList, Arena.reloadStep,
      RenderArena.reload_pipeline, alookup_cons, Arena.get_render_pipeline,
      List.getElem?_set, List.length_append]

/-- Witness for the amended C5 at a concrete input. -/
theorem claim5_witness :
    alookup arena0.render.cached 5 = none ∧
    alookup arena0.path_mapping "a.wgsl" = none ∧
    alookup arena0.path_mapping "b.wgsl" = none ∧
    "a.wgsl" ≠ "b.wgsl" ∧
    (((arena0.process_render_pipeline natPr 0 "a.wgsl" 5).2.1.process_render_pipeline
        natPr 0 "b.wgsl" 5).2.1.reload_pipelines natPr natPc 1 "b.wgsl").map
      (fun x => x.get_render_pipeline
        (arena0.process_render_pipeline natPr 0 "a.wgsl" 5).1) =
      some (some (natPr 5 1)) :=
  ⟨rfl, rfl, rfl, by decide,
    (claim5_alias_registered_under_both_paths natPr natPc arena0 "a.wgsl" "b.wgsl" 5 0 1
        rfl rfl rfl (by decide)).2.2.2.1⟩

/-- C6: registering two structurally distinct descriptors under the same path
yields two distinct handles, each a fresh slot that was not live before (its
accessor returned `none`), exactly two pipelines are created, and a reload of
that path re-materializes both handles, each from its own stored
descriptor. -/
theorem claim6_two_descriptors_two_handles_reload_both
    (processR : RD → Module → RP) (processC : CD → Module → CP)
    (a : Arena RD CD RP CP) (p : String) (d1 d2 : RD) (m m2 : Module)
    (hne : d1 ≠ d2)
    (hf1 : alookup a.render.cached d1 = none)
    (hf2 : alookup a.render.cached d2 = none)
    (hp : alookup a.path_mapping p = none) :
    ((a.process_render_pipeline processR m p d1).2.1.process_render_pipeline
        processR m p d2).1 ≠ (a.process_render_pipeline processR m p d1).1 ∧
    a.get_render_pipeline (a.process_render_pipeline processR m p d1).1 = none ∧
    a.get_render_pipeline ((a.process_render_pipeline processR m p d1).2.1.process_render_pipeline
        processR m p d2).1 = none ∧
    ((a.process_render_pipeline processR m p d1).2.1.process_render_pipeline
        processR m p d2).2.1.render.pipelines.length =
      a.render.pipelines.length + 2 ∧
    (((a.process_render_pipeline processR m p d1).2.1.process_render_pipeline
        processR m p d2).2.1.reload_pipelines processR processC m2 p).map
      (fun x =>
        (x.get_render_pipeline (a.process_render_pipeline processR m p d1).1,
          x.get_render_pipeline ((a.process_render_pipeline processR m p
              d1).2.1.process_render_pipeline processR m p d2).1)) =
      some (some (processR d1 m2), some (processR d2 m2)) := by
  rw [Arena.process_render_pipeline_miss processR m a p d1 hf1]
  have hmiss2 : alookup ((d1, (⟨a.render.pipelines.length⟩ : RenderHandle)) ::
      a.render.cached) d2 = none := by
    rw [alookup_cons, if_neg hne]
    exact hf2
  have epath : alookup (pushEntry (pushEntry a.path_mapping p
      (Sum.inl (⟨a.render.pipelines.length⟩ : RenderHandle))) p
        (Sum.inl (⟨(a.render.pipelines ++ [processR d1 m]).length⟩ : RenderHandle))) p =
      some [Sum.inl ⟨a.render.pipelines.length⟩,
        Sum.inl ⟨(a.render.pipelines ++ [processR d1 m]).length⟩] := by
    rw [alookup_pushEntry_self, alookup_pushEntry_self, hp]
    rfl
  refine ⟨?_, ?_, ?_, ?_, ?_⟩
  · simp [Arena.process_render_pipeline, RenderArena.process_pipeline, hmiss2,
      List.length_append, Nat.succ_ne_self]
  · simp [Arena.get_render_pipeline, List.getElem?_eq_none]
  · simp only [Arena.process_render_pipeline, RenderArena.process_pipeline, hmiss2]
    simp [Arena.get_render_pipeline, List.getElem?_eq_none, List.length_append]
  · simp only [Arena.process_render_pipeline, RenderArena.process_pipeline, hmiss2]
    simp [List.length_append]
  · simp only [Arena.process_render_pipeline, RenderArena.process_pipeline, hmiss2]
    simp only [Arena.reload_pipelines, epath]
    simp [Arena.reloadList, Arena.reloadStep, RenderArena.reload_pipeline,
      alookup_cons, Arena.get_render_pipeline, List.getElem?_set,
      List.length_append, Nat.succ_ne_self]
    constructor
    · rw [List.getElem_append_right (Nat.le_refl _)]
      simp
    · rw [List.getElem_append_right (by omega)]
      simp

/-- Witness for C6 at a concrete input. -/
theorem claim6_witness :
    (5 : Nat) ≠ 6 ∧
    alookup arena0.render.cached 5 = none ∧
    alookup arena0.render.cached 6 = none ∧
    alookup arena0.path_mapping "a.wgsl" = none ∧
    (((arena0.process_render_pipeline natPr 0 "a.wgsl" 5).2.1.process_render_pipeline
        natPr 0 "a.wgsl" 6).2.1.reload_pipelines natPr natPc 1 "a.wgsl").map
      (fun x =>
        (x.get_render_pipeline (arena0.process_render_pipeline natPr 0 "a.wgsl" 5).1,
          x.get_render_pipeline ((arena0.process_render_pipeline natPr 0 "a.wgsl"
              5).2.1.process_render_pipeline natPr 0 "a.wgsl" 6).1)) =
      some (some (natPr 5 1), some (natPr 6 1)) :=
  ⟨by decide, rfl, rfl, rfl,
    (claim6_two_descriptors_two_handles_reload_both natPr natPc arena0 "a.wgsl" 5 6 0 1
        (by decide) rfl rfl rfl).2.2.2.2⟩

/-- C7: render and compute handles live in disjoint namespaces.  The accessor
for a compute handle reads only the compute table and the accessor for a
render handle reads only the render table, so two handles whose slot indices
coincide numerically are never interchangeable; in the embedding, as in the
source (`slotmap::new_key_type!` plus the two `Handle` impls), the two handle
types are distinct and each accessor is typed against exactly one of them. -/
theorem claim7_handle_namespaces_disjoint :
    (∀ (a b : Arena RD CD RP CP) (i : Nat), a.compute = b.compute →
        a.get_compute_pipeline ⟨i⟩ = b.get_compute_pipeline ⟨i⟩ ∧
        a.get_compute_descriptor ⟨i⟩ = b.get_compute_descriptor ⟨i⟩) ∧
    (∀ (a b : Arena RD CD RP CP) (i : Nat), a.render = b.render →
        a.get_render_pipeline ⟨i⟩ = b.get_render_pipeline ⟨i⟩ ∧
        a.get_render_descriptor ⟨i⟩ = b.get_render_descriptor ⟨i⟩) := by
  constructor
  · intro a b i h
    exact ⟨by rw [Arena.get_compute_pipeline, Arena.get_compute_pipeline, h],
      by rw [Arena.get_compute_descriptor, Arena.get_compute_descriptor, h]⟩
  · intro a b i h
    exact ⟨by rw [Arena.get_render_pipeline, Arena.get_render_pipeline, h],
      by rw [Arena.get_render_descriptor, Arena.get_render_descriptor, h]⟩

/-- Variant of `arena2` with the whole render table cleared; the compute
table is untouched. -/
def arena2r : Arena Nat Nat (Nat × Nat) (Nat × Nat) :=
  { arena2 with render := { pipelines := [], descriptors := [], cached := [] } }

/-- Witness for C7: both tables of `arena2` have a slot with index 0, and the
compute accessor at index 0 is insensitive to arbitrary changes of the render
table. -/
theorem claim7_witness :
    arena2.compute = arena2r.compute ∧
    (arena2.get_compute_pipeline ⟨0⟩ = arena2r.get_compute_pipeline ⟨0⟩ ∧
      arena2.get_compute_descriptor ⟨0⟩ = arena2r.get_compute_descriptor ⟨0⟩) :=
  ⟨rfl, claim7_handle_namespaces_disjoint.1 arena2 arena2r 0 rfl⟩

/-- C8: in a well-formed arena, a handle beyond every slot of its table hits
the fatal `none` on both accessors (never another slot's data), and a reload
of a never-registered path is the fatal `UnknownPath` `none`. -/
theorem claim8_unknown_handle_unknown_path_fatal
    (processR : RD → Module → RP) (processC : CD → Module → CP) (m : Module)
    (a : Arena RD CD RP CP) (p : String) (hr : RenderHandle) (hc : ComputeHandle)
    (hwf : a.WF)
    (hiR : a.render.pipelines.length ≤ hr.idx)
    (hiC : a.compute.pipelines.length ≤ hc.idx)
    (hpath : alookup a.path_mapping p = none) :
    a.get_render_pipeline hr = none ∧
    a.get_render_descriptor hr = none ∧
    a.get_compute_pipeline hc = none ∧
    a.get_compute_descriptor hc = none ∧
    a.reload_pipelines processR processC m p = none := by
  obtain ⟨⟨_, hr2⟩, ⟨_, hc2⟩, _⟩ := hwf
  refine ⟨?_, ?_, ?_, ?_, ?_⟩
  · rw [Arena.get_render_pipeline]
    exact List.getElem?_eq_none hiR
  · cases hd : alookup a.render.descriptors hr with
    | none => rw [Arena.get_render_descriptor]; exact hd
    | some d =>
      exact absurd (hr2 hr d (alookup_mem _ _ _ hd)) (Nat.not_lt.mpr hiR)
  · rw [Arena.get_compute_pipeline]
    exact List.getElem?_eq_none hiC
  · cases hd : alookup a.compute.descriptors hc with
    | none => rw [Arena.get_compute_descriptor]; exact hd
    | some d =>
      exact absurd (hc2 hc d (alookup_mem _ _ _ hd)) (Nat.not_lt.mpr hiC)
  · simp [Arena.reload_pipelines, hpath]

/-- Witness for C8 at a concrete input. -/
theorem claim8_witness :
    Arena.WF arena2 ∧
    arena2.render.pipelines.length ≤ 2 ∧
    arena2.compute.pipelines.length ≤ 5 ∧
    alookup arena2.path_mapping "b.wgsl" = none ∧
    (arena2.get_render_pipeline ⟨2⟩ = none ∧
      arena2.reload_pipelines natPr natPc 0 "b.wgsl" = none) :=
  have hwf : Arena.WF arena2 :=
    Arena.WF_process_compute natPc 0 arena1 "a.wgsl" 7
      (Arena.WF_process_render natPr 0 arena0 "a.wgsl" 5 Arena.WF_new)
  ⟨hwf, by decide, by decide, by decide,
    (claim8_unknown_handle_unknown_path_fatal natPr natPc 0 arena2 "b.wgsl" ⟨2⟩ ⟨5⟩
        hwf (by decide) (by decide) (by decide)).1,
    (claim8_unknown_handle_unknown_path_fatal natPr natPc 0 arena2 "b.wgsl" ⟨2⟩ ⟨5⟩
        hwf (by decide) (by decide) (by decide)).2.2.2.2⟩

/-- C9: the arena's maps stay mutually consistent under every operation: the
fresh arena is well formed, both process operations preserve well-formedness,
and so does every successful reload — where well-formedness says every cached
or registered handle is a live slot with a stored descriptor, and each cache
entry's handle stores exactly the cache key as its descriptor. -/
theorem claim9_maps_mutually_consistent :
    (Arena.new : Arena RD CD RP CP).WF ∧
    (∀ (processR : RD → Module → RP) (module : Module) (a : Arena RD CD RP CP)
        (p : String) (d : RD), a.WF →
        ((a.process_render_pipeline processR module p d).2.1).WF) ∧
    (∀ (processC : CD → Module → CP) (module : Module) (a : Arena RD CD RP CP)
        (p : String) (e : CD), a.WF →
        ((a.process_compute_pipeline processC module p e).2.1).WF) ∧
    (∀ (processR : RD → Module → RP) (processC : CD → Module → CP) (module : Module)
        (a a2 : Arena RD CD RP CP) (p : String), a.WF →
        a.reload_pipelines processR processC module p = some a2 → a2.WF) :=
  ⟨Arena.WF_new,
    fun processR module a p d h => Arena.WF_process_render processR module a p d h,
    fun processC module a p e h => Arena.WF_process_compute processC module a p e h,
    fun processR processC module a a2 p h hrel =>
      Arena.WF_reload processR processC module a a2 p h hrel⟩

/-- Witness for C9 at a concrete input. -/
theorem claim9_witness :
    arena2.reload_pipelines natPr natPc 1 "a.wgsl" = some arena3 ∧ Arena.WF arena3 :=
  have h1 : arena2.reload_pipelines natPr natPc 1 "a.wgsl" = some arena3 := by decide
  have c9 := @claim9_maps_mutually_consistent Nat Nat (Nat × Nat) (Nat × Nat) Nat _ _
  ⟨h1,
    c9.2.2.2 natPr natPc 1 arena2 arena3 "a.wgsl"
      (c9.2.2.1 natPc 0 arena1 "a.wgsl" 7
        (c9.2.1 natPr 0 arena0 "a.wgsl" 5 c9.1)) h1⟩

/-- C10: a successful reload of path `p` mutates only the compiled pipeline
objects of handles registered under `p`: descriptor stores, dedup caches, the
path registry and the number of live slots are unchanged, and the pipeline of
every handle not registered under `p` is unchanged. -/
theorem claim10_reload_touches_only_registered
    (processR : RD → Module → RP) (processC : CD → Module → CP) (module : Module)
    (a a2 : Arena RD CD RP CP) (p : String)
    (l : List (Sum RenderHandle ComputeHandle))
    (hl : alookup a.path_mapping p = some l)
    (hrel : a.reload_pipelines processR processC module p = some a2) :
    a2.render.descriptors = a.render.descriptors ∧
    a2.compute.descriptors = a.compute.descriptors ∧
    a2.render.cached = a.render.cached ∧
    a2.compute.cached = a.compute.cached ∧
    a2.path_mapping = a.path_mapping ∧
    a2.render.pipelines.length = a.render.pipelines.length ∧
    a2.compute.pipelines.length = a.compute.pipelines.length ∧
    (∀ h : RenderHandle, Sum.inl h ∉ l →
        a2.get_render_pipeline h = a.get_render_pipeline h) ∧
    (∀ h : ComputeHandle, Sum.inr h ∉ l →
        a2.get_compute_pipeline h = a.get_compute_pipeline h) := by
  unfold Arena.reload_pipelines at hrel
  rw [hl] at hrel
  obtain ⟨hd, hc, hlen, hdd, hcc, hclen, hpm⟩ :=
    Arena.reloadList_frame processR processC module l a a2 hrel
  refine ⟨hd, hdd, hc, hcc, hpm, hlen, hclen, ?_, ?_⟩
  · intro h hnm
    rw [Arena.get_render_pipeline, Arena.get_render_pipeline]
    refine Arena.reloadList_get_render_ne processR processC module l a a2 hrel h.idx ?_
    intro h1 hm1 hidx
    have he : h1 = h := by
      cases h1; cases h
      simpa using hidx
    exact hnm (he ▸ hm1)
  · intro h hnm
    rw [Arena.get_compute_pipeline, Arena.get_compute_pipeline]
    refine Arena.reloadList_get_compute_ne processR processC module l a a2 hrel h.idx ?_
    intro h1 hm1 hidx
    have he : h1 = h := by
      cases h1; cases h
      simpa using hidx
    exact hnm (he ▸ hm1)

/-- Witness for C10 at a concrete input. -/
theorem claim10_witness :
    alookup arena2.path_mapping "a.wgsl" = some [Sum.inl ⟨0⟩, Sum.inr ⟨0⟩] ∧
    arena2.reload_pipelines natPr natPc 1 "a.wgsl" = some arena3 ∧
    (arena3.path_mapping = arena2.path_mapping ∧
      arena3.render.cached = arena2.render.cached) :=
  ⟨by decide, by decide,
    (claim10_reload_touches_only_registered natPr natPc 1 arena2 arena3 "a.wgsl"
        [Sum.inl ⟨0⟩, Sum.inr ⟨0⟩] (by decide) (by decide)).2.2.2.2.1,
    (claim10_reload_touches_only_registered natPr natPc 1 arena2 arena3 "a.wgsl"
        [Sum.inl ⟨0⟩, Sum.inr ⟨0⟩] (by decide) (by decide)).2.2.1⟩

end PoissonCorrode
